import Mathlib

/-!
# Appointment Scheduling & Conflict Engine — verification development

Shallow embedding of the appointment-scheduling backend routes
(`routes/appointments.js`, `routes/locations.js`): interval-overlap
conflict detection, availability-slot generation, booking, update,
status patch, bulk operations, and per-location hourly capacity
accounting.  Timestamps are modelled as `Int` minutes (the source works
in milliseconds via JS `Date`; all comparisons are order-theoretic so
the unit is irrelevant), and the source's string durations
(`"30 minutes"`, parsed with `parseInt` at every call site) are
modelled by the parsed integer minute count.
-/

namespace Scheduling

set_option linter.unnecessarySeqFocus false

/-- Appointment status enum (`PENDING | CONFIRMED | CANCELLED | COMPLETED | NO_SHOW`). -/
inductive Status where
  | PENDING
  | CONFIRMED
  | CANCELLED
  | COMPLETED
  | NO_SHOW
deriving DecidableEq, Repr

/-- An appointment row: `date` is the start timestamp in minutes,
`duration` the parsed minute count of the stored duration string. -/
structure Appointment where
  id : String
  patientId : String
  providerId : String
  locationId : String
  date : Int
  duration : Nat
  status : Status
deriving DecidableEq, Repr

/-- The duration strings accepted by `appointmentSchema`
(`'15 minutes' | '30 minutes' | '45 minutes' | '60 minutes' | '90 minutes'`),
as their parsed minute counts. -/
def validDuration (d : Nat) : Prop :=
  d = 15 ∨ d = 30 ∨ d = 45 ∨ d = 60 ∨ d = 90

instance : DecidablePred validDuration := fun d => by
  unfold validDuration; infer_instance

/-- The three-clause overlap test the source repeats at each call site
(availability slot check, POST create, PUT update), for candidate
interval `[cs, ce)` against existing interval `[as_, ae)`:

`(current >= aptStart && current < aptEnd) ||
 (slotEnd > aptStart && slotEnd <= aptEnd) ||
 (current <= aptStart && slotEnd >= aptEnd)`. -/
def hasConflictClause (cs ce as_ ae : Int) : Bool :=
  (decide (cs ≥ as_) && decide (cs < ae)) ||
  (decide (ce > as_) && decide (ce ≤ ae)) ||
  (decide (cs ≤ as_) && decide (ce ≥ ae))

/-- The spec's single overlap predicate (§4.1): `[s1,e1)` and `[s2,e2)`
overlap iff `s1 < e2` and `s2 < e1`. -/
def specOverlap (s1 e1 s2 e2 : Int) : Bool :=
  decide (s1 < e2) && decide (s2 < e1)

/-- The code's three-clause test agrees with the spec's predicate on
non-empty intervals. -/
theorem hasConflictClause_eq_specOverlap (s1 e1 s2 e2 : Int)
    (h1 : s1 < e1) (h2 : s2 < e2) :
    hasConflictClause s1 e1 s2 e2 = specOverlap s1 e1 s2 e2 := by
  apply Bool.eq_iff_iff.mpr
  unfold hasConflictClause specOverlap
  simp only [Bool.or_eq_true, Bool.and_eq_true, decide_eq_true_eq]
  omega

/-! ## Booking (`POST /api/appointments`) -/

/-- A booking request that passed `appointmentSchema` validation;
`duration` is the parsed minute count of the duration string, `status`
the optional explicit status. -/
structure BookingRequest where
  patientId : String
  providerId : String
  locationId : String
  date : Int
  duration : Nat
  status : Option Status
deriving DecidableEq, Repr

/-- The ±24h windowed fetch the booking path runs:
`providerId` match, `status: { not: 'CANCELLED' }`, and
`date` between 24 hours before and 24 hours after the requested start
(24h = 1440 minutes). -/
def windowFilter (store : List Appointment) (pid : String) (reqStart : Int) :
    List Appointment :=
  store.filter (fun a =>
    decide (a.providerId = pid) && decide (a.status ≠ Status.CANCELLED) &&
    decide (reqStart - 1440 ≤ a.date) && decide (a.date ≤ reqStart + 1440))

/-- The per-appointment overlap test the booking path applies to each
fetched appointment: the requested interval `[reqStart, reqEnd)` against
`[aptStart, aptStart + parseInt(apt.duration))`. -/
def overlapsReq (reqStart reqEnd : Int) (a : Appointment) : Bool :=
  hasConflictClause reqStart reqEnd a.date (a.date + (a.duration : Int))

/-- The conflict list the booking path computes: windowed fetch, then
the overlap filter (this is both the `hasConflict` test's domain and the
409 payload's `conflicts` filter). -/
def bookConflicts (store : List Appointment) (req : BookingRequest) :
    List Appointment :=
  (windowFilter store req.providerId req.date).filter
    (overlapsReq req.date (req.date + (req.duration : Int)))

/-- Outcome of `POST /api/appointments`. -/
inductive BookResult where
  | conflict (conflicts : List Appointment)
  | created (appt : Appointment)
deriving DecidableEq, Repr

/-- The appointment row `prisma.appointment.create` persists for a
validated request (status defaults to `PENDING` when not supplied). -/
def requestedAppointment (req : BookingRequest) (newId : String) : Appointment :=
  { id := newId, patientId := req.patientId, providerId := req.providerId,
    locationId := req.locationId, date := req.date, duration := req.duration,
    status := req.status.getD Status.PENDING }

/-- `POST /api/appointments`: fetch the ±24h window, test each fetched
appointment with the three-clause overlap; on any overlap answer 409
carrying the overlapping appointments and leave the store untouched,
otherwise persist the new row. -/
def book (store : List Appointment) (req : BookingRequest) (newId : String) :
    BookResult × List Appointment :=
  let conflicts := windowFilter store req.providerId req.date
  let reqEnd := req.date + (req.duration : Int)
  if conflicts.any (overlapsReq req.date reqEnd) then
    (BookResult.conflict (conflicts.filter (overlapsReq req.date reqEnd)), store)
  else
    (BookResult.created (requestedAppointment req newId),
     store ++ [requestedAppointment req newId])

/-- The unbounded scan over all of the provider's appointments: same
provider, not cancelled, overlapping the requested interval — no date
window. -/
def unboundedConflicts (store : List Appointment) (pid : String) (s e : Int) :
    List Appointment :=
  store.filter (fun a =>
    decide (a.providerId = pid) && decide (a.status ≠ Status.CANCELLED) &&
    hasConflictClause s e a.date (a.date + (a.duration : Int)))

/-! ## Availability (`GET /api/appointments/availability`) -/

/-- The availability endpoint's appointment fetch: `providerId` match,
optional `locationId` match (spread in only when the query supplies
one), `date` within the selected day (`startOfDay ≤ date ≤ endOfDay`,
modelled at minute granularity as `dayStart .. dayStart + 1439`), and
`status: { not: 'CANCELLED' }`. -/
def availabilityAppointments (store : List Appointment) (pid : String)
    (locFilter : Option String) (dayStart : Int) : List Appointment :=
  store.filter (fun a =>
    decide (a.providerId = pid) &&
    (match locFilter with
     | some l => decide (a.locationId = l)
     | none => true) &&
    decide (dayStart ≤ a.date) && decide (a.date ≤ dayStart + 1439) &&
    decide (a.status ≠ Status.CANCELLED))

/-- The slot loop body over one availability range: from cursor
`current`, while `current < re`, the candidate slot is
`[current, current + duration)`; it is admitted when it ends by the
range end and the three-clause test finds no conflict against any
fetched appointment; the cursor then advances by the 15-minute
granularity.  `fuel` bounds the iteration count (the source loop
terminates because the cursor strictly increases). -/
def slotScan (existing : List Appointment) (dur : Nat) (re : Int) :
    Nat → Int → List (Int × Int)
  | 0, _ => []
  | fuel + 1, current =>
    if current < re then
      if current + (dur : Int) ≤ re then
        if existing.any (fun apt =>
            hasConflictClause current (current + (dur : Int)) apt.date
              (apt.date + (apt.duration : Int))) then
          slotScan existing dur re fuel (current + 15)
        else
          (current, current + (dur : Int)) :: slotScan existing dur re fuel (current + 15)
      else slotScan existing dur re fuel (current + 15)
    else []

/-- The full slot computation: for each availability range of the
selected weekday, run the 15-minute cursor loop against the fetched
appointments.  Ranges are the parsed `(start, end)` minute pairs of the
provider's `"HH:MM - HH:MM"` strings. -/
def generateSlots (dayAvailability : List (Int × Int))
    (existing : List Appointment) (dur : Nat) : List (Int × Int) :=
  dayAvailability.flatMap (fun r =>
    slotScan existing dur r.2 ((r.2 - r.1).toNat + 1) r.1)

/-- End-to-end availability computation: fetch the provider's same-day
(optionally location-filtered) non-cancelled appointments, then
enumerate slots. -/
def availableSlots (store : List Appointment) (pid : String)
    (locFilter : Option String) (dayStart : Int)
    (dayAvailability : List (Int × Int)) (dur : Nat) : List (Int × Int) :=
  generateSlots dayAvailability
    (availabilityAppointments store pid locFilter dayStart) dur

/-! ## Update (`PUT /api/appointments/:id`) -/

/-- A request that passed `updateAppointmentSchema`: every field
optional. -/
structure UpdateRequest where
  patientId : Option String := none
  providerId : Option String := none
  locationId : Option String := none
  date : Option Int := none
  duration : Option Nat := none
  status : Option Status := none
deriving DecidableEq, Repr

/-- `prisma.appointment.update({ data: value })`: supplied fields
overwrite, absent fields keep the stored value. -/
def applyPatch (a : Appointment) (r : UpdateRequest) : Appointment :=
  { a with
    patientId := r.patientId.getD a.patientId,
    providerId := r.providerId.getD a.providerId,
    locationId := r.locationId.getD a.locationId,
    date := r.date.getD a.date,
    duration := r.duration.getD a.duration,
    status := r.status.getD a.status }

/-- Outcome of `PUT /api/appointments/:id`. -/
inductive UpdateResult where
  | notFound
  | conflict
  | updated (a : Appointment)
deriving DecidableEq, Repr

/-- The update path's conflict fetch: `id: { not: id }`, provider
match, not cancelled, ±24h window around the effective start. -/
def updateConflictWindow (store : List Appointment) (id : String)
    (pid : String) (s : Int) : List Appointment :=
  store.filter (fun a =>
    decide (a.id ≠ id) && decide (a.providerId = pid) &&
    decide (a.status ≠ Status.CANCELLED) &&
    decide (s - 1440 ≤ a.date) && decide (a.date ≤ s + 1440))

/-- `PUT /api/appointments/:id`: 404 when the id is absent; when the
request supplies a date or a duration, run the windowed conflict check
(excluding the appointment itself) with the three-clause overlap and
answer 409 leaving the store untouched on a hit; otherwise persist the
patch with no conflict check. -/
def updateAppointment (store : List Appointment) (id : String)
    (r : UpdateRequest) : UpdateResult × List Appointment :=
  match store.find? (fun a => decide (a.id = id)) with
  | none => (UpdateResult.notFound, store)
  | some existing =>
    let persist : UpdateResult × List Appointment :=
      (UpdateResult.updated (applyPatch existing r),
       store.map (fun a => if a.id = id then applyPatch a r else a))
    if r.date.isSome || r.duration.isSome then
      let s := r.date.getD existing.date
      let dur := r.duration.getD existing.duration
      let e := s + (dur : Int)
      let conflicts :=
        updateConflictWindow store id (r.providerId.getD existing.providerId) s
      if conflicts.any (fun a =>
          hasConflictClause s e a.date (a.date + (a.duration : Int))) then
        (UpdateResult.conflict, store)
      else persist
    else persist

/-! ## Status patch (`PATCH /api/appointments/:id/status`) -/

/-- `PATCH /api/appointments/:id/status`: `prisma.appointment.update`
overwrites the status unconditionally — there is no transition table;
`none` models the not-found (`P2025`) failure. -/
def statusUpdate (store : List Appointment) (id : String)
    (newStatus : Status) : Option (List Appointment) :=
  if store.any (fun a => decide (a.id = id)) then
    some (store.map (fun a =>
      if a.id = id then { a with status := newStatus } else a))
  else none

/-! ## Bulk (`POST /api/appointments/bulk`) -/

/-- Bulk actions accepted by the endpoint. -/
inductive BulkAction where
  | delete
  | updateStatus
deriving DecidableEq, Repr

/-- `POST /api/appointments/bulk`: `deleteMany`/`updateMany` with
`id: { in: appointmentIds }`; both report `result.count`, the number
of store rows matched.  `none` models the 400 answer (missing status
for `update-status`). -/
def applyBulk (store : List Appointment) (action : BulkAction)
    (ids : List String) (data : Option Status) :
    Option (Nat × List Appointment) :=
  match action with
  | BulkAction.delete =>
    some ((store.filter (fun a => decide (a.id ∈ ids))).length,
          store.filter (fun a => !decide (a.id ∈ ids)))
  | BulkAction.updateStatus =>
    match data with
    | none => none
    | some st =>
      some ((store.filter (fun a => decide (a.id ∈ ids))).length,
            store.map (fun a =>
              if a.id ∈ ids then { a with status := st } else a))

/-! ## Diagnostic conflict report (`GET /api/appointments/conflicts`) -/

/-- One reported conflict pair (`appointment1`, `appointment2`,
`overlapMinutes = currentEnd - nextStart`). -/
structure ConflictPair where
  appointment1 : Appointment
  appointment2 : Appointment
  overlapMinutes : Int
deriving DecidableEq, Repr

/-- The report loop: for each index `i`, compare `appointments[i]` only
with `appointments[i+1]` and report the pair when
`currentEnd > nextStart`. -/
def conflictPairs : List Appointment → List ConflictPair
  | [] => []
  | [_] => []
  | a :: b :: rest =>
    (if a.date + (a.duration : Int) > b.date then
      [{ appointment1 := a, appointment2 := b,
         overlapMinutes := a.date + (a.duration : Int) - b.date }]
     else []) ++ conflictPairs (b :: rest)

/-- The report's appointment fetch: provider match, not cancelled,
optional date range, ordered by `date` ascending. -/
def conflictReportAppointments (store : List Appointment) (pid : String)
    (range : Option (Int × Int)) : List Appointment :=
  (store.filter (fun a =>
    decide (a.providerId = pid) && decide (a.status ≠ Status.CANCELLED) &&
    (match range with
     | some (lo, hi) => decide (lo ≤ a.date) && decide (a.date ≤ hi)
     | none => true))).mergeSort (fun a b => decide (a.date ≤ b.date))

/-! ## Location capacity (`GET /api/locations/:id/availability`) -/

/-- The location availability fetch: `locationId` match, `date` within
the selected day, not cancelled. -/
def locationDayAppointments (store : List Appointment) (locId : String)
    (dayStart : Int) : List Appointment :=
  store.filter (fun a =>
    decide (a.locationId = locId) &&
    decide (dayStart ≤ a.date) && decide (a.date ≤ dayStart + 1439) &&
    decide (a.status ≠ Status.CANCELLED))

/-- `apt.date.getHours()` for an appointment inside the selected day. -/
def aptStartHour (dayStart : Int) (a : Appointment) : Nat :=
  (a.date - dayStart).toNat / 60

/-- `Math.ceil((apt.date.getMinutes() + durationMinutes) / 60) + hour`. -/
def aptEndHour (dayStart : Int) (a : Appointment) : Nat :=
  ((a.date - dayStart).toNat % 60 + a.duration + 59) / 60 + aptStartHour dayStart a

/-- The `hourlyCount` accumulator, read per bucket: each appointment
increments every hour `h` with `startHour ≤ h < endHour`. -/
def hourlyCount (dayStart : Int) (appts : List Appointment) (h : Nat) : Nat :=
  appts.countP (fun a =>
    decide (aptStartHour dayStart a ≤ h) && decide (h < aptEndHour dayStart a))

/-- One entry of `availabilityByHour`. -/
structure HourBucket where
  hour : Nat
  currentAppointments : Nat
  availableSlots : Nat
  isAvailable : Bool
deriving DecidableEq, Repr

/-- The bucket the endpoint builds for hour `h`:
`currentAppointments = hourlyCount[h] || 0`,
`availableSlots = Math.max(0, capacity - count)` (truncated
subtraction), `isAvailable = count < capacity`. -/
def hourBucket (dayStart : Int) (capacity : Nat) (appts : List Appointment)
    (h : Nat) : HourBucket :=
  let c := hourlyCount dayStart appts h
  { hour := h, currentAppointments := c, availableSlots := capacity - c,
    isAvailable := decide (c < capacity) }

/-- `availabilityByHour`: buckets for hours 8 through 18. -/
def availabilityByHour (dayStart : Int) (capacity : Nat)
    (appts : List Appointment) : List HourBucket :=
  (List.range 11).map (fun k => hourBucket dayStart capacity appts (8 + k))

/-! ## Helper lemmas -/

/-- The validated duration strings parse to minute counts between 15
and 90. -/
theorem validDuration_bounds {d : Nat} (h : validDuration d) :
    15 ≤ d ∧ d ≤ 90 := by
  rcases h with h | h | h | h | h <;> omega

/-! ## C1 — three-clause overlap test vs the spec's single predicate -/

/-- C1: the code's three-clause overlap test (candidate start inside
the existing interval, candidate end inside it, or candidate containing
it) agrees with the spec's single predicate `s1 < e2 ∧ s2 < e1` on every
pair of non-empty half-open intervals. -/
theorem C1_overlap_clauses_equiv_spec (s1 e1 s2 e2 : Int)
    (h1 : s1 < e1) (h2 : s2 < e2) :
    hasConflictClause s1 e1 s2 e2 = specOverlap s1 e1 s2 e2 :=
  hasConflictClause_eq_specOverlap s1 e1 s2 e2 h1 h2

/-- C1 witness: the equivalence applied at intervals `[0,30)` and
`[15,45)`. -/
theorem C1_overlap_clauses_equiv_spec_witness :
    ((0 : Int) < 30 ∧ (15 : Int) < 45) ∧
      hasConflictClause 0 30 15 45 = specOverlap 0 30 15 45 :=
  ⟨⟨by decide, by decide⟩,
   C1_overlap_clauses_equiv_spec 0 30 15 45 (by decide) (by decide)⟩

/-! ## C3 — slot count for a 09:00–12:00 range at duration 30 -/

/-- C3 counterexample: for the single availability range 09:00–12:00
(minutes 540–720), no existing appointments and duration 30, the
15-minute cursor loop yields 11 slots, not 6. -/
theorem C3_counterexample :
    (availableSlots [] "prov1" none 0 [(540, 720)] 30).length = 11 ∧
    (availableSlots [] "prov1" none 0 [(540, 720)] 30).length ≠ 6 := by
  decide

/-- C3 (amended): for a provider whose availability on the requested
weekday is the single range 09:00–12:00, no existing appointments and
duration 30, the computation returns exactly 11 slots with start times
09:00, 09:15, …, 11:30 (stepping by the 15-minute granularity and
admitting every 30-minute window that fits inside the range). -/
theorem C3_amended_eleven_slots :
    availableSlots [] "prov1" none 0 [(540, 720)] 30 =
      [(540, 570), (555, 585), (570, 600), (585, 615), (600, 630),
       (615, 645), (630, 660), (645, 675), (660, 690), (675, 705),
       (690, 720)] := by
  decide

/-! ## C7 — status PATCH has no transition guard -/

/-- A CANCELLED appointment used to exercise the status patch. -/
def cancelled10 : Appointment :=
  { id := "a1", patientId := "p1", providerId := "prov1", locationId := "L1",
    date := 600, duration := 30, status := Status.CANCELLED }

/-- C7 counterexample: patching a CANCELLED appointment to CONFIRMED
succeeds and overwrites the status — it is not rejected and the status
does not stay unchanged. -/
theorem C7_counterexample :
    statusUpdate [cancelled10] "a1" Status.CONFIRMED =
      some [{ id := "a1", patientId := "p1", providerId := "prov1",
              locationId := "L1", date := 600, duration := 30,
              status := Status.CONFIRMED }] := by
  decide

/-- C7 (amended): the status patch applies any requested status
unconditionally — for every appointment present in the store, the
update succeeds and that appointment's status becomes the requested
one, with no terminal-state (or any other) transition guard. -/
theorem C7_amended_status_overwrite (store : List Appointment)
    (id : String) (st : Status) (a : Appointment)
    (ha : a ∈ store) (hid : a.id = id) :
    statusUpdate store id st =
        some (store.map (fun b =>
          if b.id = id then { b with status := st } else b)) ∧
      { a with status := st } ∈
        store.map (fun b => if b.id = id then { b with status := st } else b) := by
  constructor
  · unfold statusUpdate
    rw [if_pos (List.any_eq_true.mpr ⟨a, ha, by simp [hid]⟩)]
  · have hfun : ({ a with status := st }) =
        (fun b => if b.id = id then { b with status := st } else b) a := by
      simp [hid]
    rw [hfun]
    exact List.mem_map_of_mem _ ha

/-- C7 witness: the amended statement applied to the CANCELLED→CONFIRMED
scenario. -/
theorem C7_amended_status_overwrite_witness :
    (cancelled10 ∈ [cancelled10] ∧ cancelled10.id = "a1") ∧
      (statusUpdate [cancelled10] "a1" Status.CONFIRMED =
          some ([cancelled10].map (fun b =>
            if b.id = "a1" then { b with status := Status.CONFIRMED } else b)) ∧
        { cancelled10 with status := Status.CONFIRMED } ∈
          [cancelled10].map (fun b =>
            if b.id = "a1" then { b with status := Status.CONFIRMED } else b)) :=
  ⟨⟨by decide, by decide⟩,
   C7_amended_status_overwrite [cancelled10] "a1" Status.CONFIRMED cancelled10
     (by decide) (by decide)⟩

/-! ## C6 — diagnostic conflict report compares only adjacent pairs -/

/-- Overlapping appointment 10:00–11:30. -/
def diagA : Appointment :=
  { id := "a", patientId := "p1", providerId := "prov1", locationId := "L1",
    date := 600, duration := 90, status := Status.CONFIRMED }

/-- Overlapping appointment 10:15–10:30. -/
def diagB : Appointment :=
  { id := "b", patientId := "p2", providerId := "prov1", locationId := "L1",
    date := 615, duration := 15, status := Status.CONFIRMED }

/-- Overlapping appointment 10:35–10:50 (overlaps `diagA` but not its
predecessor `diagB`). -/
def diagC : Appointment :=
  { id := "c", patientId := "p3", providerId := "prov1", locationId := "L1",
    date := 635, duration := 15, status := Status.CONFIRMED }

/-- C6 counterexample: with three non-cancelled appointments of one
provider where the first overlaps both later ones, the report carries
only the single adjacent pair (`diagA`,`diagB`) even though `diagA`
also overlaps the non-adjacent `diagC`. -/
theorem C6_counterexample :
    conflictPairs (conflictReportAppointments [diagA, diagB, diagC] "prov1" none) =
        [{ appointment1 := diagA, appointment2 := diagB, overlapMinutes := 75 }] ∧
      specOverlap diagA.date (diagA.date + (diagA.duration : Int))
        diagC.date (diagC.date + (diagC.duration : Int)) = true := by
  constructor
  · have hfilter : ([diagA, diagB, diagC].filter (fun a =>
        decide (a.providerId = "prov1") && decide (a.status ≠ Status.CANCELLED) &&
        (match (none : Option (Int × Int)) with
         | some (lo, hi) => decide (lo ≤ a.date) && decide (a.date ≤ hi)
         | none => true))) = [diagA, diagB, diagC] := by decide
    have hsorted : conflictReportAppointments [diagA, diagB, diagC] "prov1" none =
        [diagA, diagB, diagC] := by
      unfold conflictReportAppointments
      rw [hfilter]
      exact List.mergeSort_of_sorted (by decide)
    rw [hsorted]
    decide
  · decide

/-- The report loop keeps exactly the chronologically adjacent pairs
that overlap: on a date-sorted list with positive durations it equals
the overlap filter over consecutive pairs. -/
theorem conflictPairs_adjacent_exact :
    ∀ (l : List Appointment),
      l.Chain' (fun a b => a.date ≤ b.date) →
      (∀ a ∈ l, 1 ≤ a.duration) →
      conflictPairs l =
        ((l.zip l.tail).filter (fun p =>
          specOverlap p.1.date (p.1.date + (p.1.duration : Int))
            p.2.date (p.2.date + (p.2.duration : Int)))).map
          (fun p => { appointment1 := p.1, appointment2 := p.2,
                      overlapMinutes := p.1.date + (p.1.duration : Int) - p.2.date })
  | [], _, _ => rfl
  | [_], _, _ => rfl
  | a :: b :: rest, hc, hd => by
    have hab : a.date ≤ b.date := (List.chain'_cons.mp hc).1
    have hbdur : 1 ≤ b.duration := hd b (by simp)
    have ih := conflictPairs_adjacent_exact (b :: rest)
      (List.Chain'.tail hc) (fun x hx => hd x (List.mem_cons_of_mem _ hx))
    show (if a.date + (a.duration : Int) > b.date then _ else _) ++
        conflictPairs (b :: rest) = _
    rw [ih]
    by_cases hov : a.date + (a.duration : Int) > b.date
    · have hspec : specOverlap a.date (a.date + (a.duration : Int))
          b.date (b.date + (b.duration : Int)) = true := by
        unfold specOverlap
        simp only [Bool.and_eq_true, decide_eq_true_eq]
        omega
      simp [hov, hspec, List.filter_cons]
    · have hspec : specOverlap a.date (a.date + (a.duration : Int))
          b.date (b.date + (b.duration : Int)) = false := by
        unfold specOverlap
        simp only [Bool.and_eq_false_iff, decide_eq_false_iff_not]
        omega
      simp [hov, hspec, List.filter_cons]

/-- C6 (amended): over a date-sorted window with positive durations,
the diagnostic report contains exactly the pairs of *chronologically
adjacent* appointments that overlap (with the overlap minute count);
overlapping pairs that are not adjacent after sorting by start are not
reported. -/
theorem C6_amended_adjacent_pairs_only (l : List Appointment)
    (hsort : l.Chain' (fun a b => a.date ≤ b.date))
    (hdur : ∀ a ∈ l, 1 ≤ a.duration) :
    conflictPairs l =
      ((l.zip l.tail).filter (fun p =>
        specOverlap p.1.date (p.1.date + (p.1.duration : Int))
          p.2.date (p.2.date + (p.2.duration : Int)))).map
        (fun p => { appointment1 := p.1, appointment2 := p.2,
                    overlapMinutes := p.1.date + (p.1.duration : Int) - p.2.date }) :=
  conflictPairs_adjacent_exact l hsort hdur

/-- C6 witness: the amended statement applied to the three-appointment
scenario. -/
theorem C6_amended_adjacent_pairs_only_witness :
    ([diagA, diagB, diagC].Chain' (fun a b => a.date ≤ b.date) ∧
      ∀ a ∈ [diagA, diagB, diagC], 1 ≤ a.duration) ∧
      conflictPairs [diagA, diagB, diagC] =
        (([diagA, diagB, diagC].zip [diagB, diagC]).filter (fun p =>
          specOverlap p.1.date (p.1.date + (p.1.duration : Int))
            p.2.date (p.2.date + (p.2.duration : Int)))).map
          (fun p => { appointment1 := p.1, appointment2 := p.2,
                      overlapMinutes := p.1.date + (p.1.duration : Int) - p.2.date }) :=
  by
  have hc : [diagA, diagB, diagC].Chain' (fun a b => a.date ≤ b.date) := by
    simp only [List.chain'_cons, List.chain'_singleton, and_true]
    exact ⟨by decide, by decide⟩
  exact ⟨⟨hc, by decide⟩,
    C6_amended_adjacent_pairs_only [diagA, diagB, diagC] hc (by decide)⟩

/-! ## C8 — bulk `affectedCount` -/

/-- `countP` of a disjunction of pointwise-disjoint predicates splits
into a sum. -/
theorem countP_or_disjoint (l : List Appointment) (p q : Appointment → Bool)
    (h : ∀ a ∈ l, ¬(p a = true ∧ q a = true)) :
    l.countP (fun a => p a || q a) = l.countP p + l.countP q := by
  induction l with
  | nil => simp
  | cons x xs ih =>
    have hx := h x (List.mem_cons_self x xs)
    have ih' := ih (fun a ha => h a (List.mem_cons_of_mem x ha))
    rw [List.countP_cons, List.countP_cons, List.countP_cons, ih']
    by_cases hp : p x = true
    · have hq : q x = false := by
        cases hqq : q x
        · rfl
        · exact absurd ⟨hp, hqq⟩ hx
      simp [hp, hq]
      omega
    · have hp' : p x = false := Bool.eq_false_iff.mpr hp
      cases hq : q x <;> simp [hp', hq] <;> omega

/-- In a store whose ids are unique, the number of rows matching one id
is 1 when present, 0 when absent. -/
theorem countP_id_unique (store : List Appointment) (i : String)
    (hids : (store.map Appointment.id).Nodup) :
    store.countP (fun a => decide (a.id = i)) =
      if store.any (fun a => decide (a.id = i)) then 1 else 0 := by
  induction store with
  | nil => simp
  | cons x xs ih =>
    rw [List.map_cons, List.nodup_cons] at hids
    by_cases hx : x.id = i
    · have hzero : xs.countP (fun a => decide (a.id = i)) = 0 := by
        apply List.countP_eq_zero.mpr
        intro a ha
        simp only [decide_eq_true_eq]
        intro hai
        exact hids.1 ((hx.trans hai.symm) ▸ List.mem_map_of_mem Appointment.id ha)
      simp [List.countP_cons, List.any_cons, hx, hzero]
    · simp [List.countP_cons, List.any_cons, hx, ih hids.2]

/-- The number of store rows whose id appears in a duplicate-free id
list equals the number of listed ids that exist in a unique-id store. -/
theorem matched_rows_eq_existing_ids (store : List Appointment) (ids : List String)
    (hids : (store.map Appointment.id).Nodup) (hnodup : ids.Nodup) :
    (store.filter (fun a => decide (a.id ∈ ids))).length =
      (ids.filter (fun i => store.any (fun a => decide (a.id = i)))).length := by
  induction ids with
  | nil => simp
  | cons i rest ih =>
    rw [List.nodup_cons] at hnodup
    rw [← List.countP_eq_length_filter, ← List.countP_eq_length_filter]
    have hsplit : store.countP (fun a => decide (a.id ∈ i :: rest)) =
        store.countP (fun a => decide (a.id = i)) +
          store.countP (fun a => decide (a.id ∈ rest)) := by
      rw [List.countP_congr (q := fun a =>
        decide (a.id = i) || decide (a.id ∈ rest))]
      · exact countP_or_disjoint store _ _ (fun a _ hpq => by
          simp only [decide_eq_true_eq] at hpq
          exact hnodup.1 (hpq.1 ▸ hpq.2))
      · intro a _
        simp [List.mem_cons]
    have ih' : store.countP (fun a => decide (a.id ∈ rest)) =
        rest.countP (fun i => store.any (fun a => decide (a.id = i))) := by
      rw [List.countP_eq_length_filter, List.countP_eq_length_filter]
      exact ih hnodup.2
    rw [hsplit, countP_id_unique store i hids, ih', List.countP_cons]
    by_cases hany : store.any (fun a => decide (a.id = i)) = true <;>
      simp [hany] <;> omega

/-- C8: for both bulk actions, the returned `affectedCount` equals the
number of appointment ids in the (duplicate-free) input list that
existed in the (unique-id) store immediately before the operation. -/
theorem C8_bulk_affected_count (store : List Appointment) (action : BulkAction)
    (ids : List String) (data : Option Status) (n : Nat)
    (store' : List Appointment)
    (hids : (store.map Appointment.id).Nodup) (hnodup : ids.Nodup)
    (h : applyBulk store action ids data = some (n, store')) :
    n = (ids.filter (fun i => store.any (fun a => decide (a.id = i)))).length := by
  cases action with
  | delete =>
    simp only [applyBulk, Option.some.injEq, Prod.mk.injEq] at h
    rw [← h.1]
    exact matched_rows_eq_existing_ids store ids hids hnodup
  | updateStatus =>
    cases data with
    | none => simp [applyBulk] at h
    | some st =>
      simp only [applyBulk, Option.some.injEq, Prod.mk.injEq] at h
      rw [← h.1]
      exact matched_rows_eq_existing_ids store ids hids hnodup

/-- Bulk-scenario appointment 1. -/
def bulk1 : Appointment :=
  { id := "b1", patientId := "p1", providerId := "prov1", locationId := "L1",
    date := 600, duration := 30, status := Status.CONFIRMED }

/-- Bulk-scenario appointment 2. -/
def bulk2 : Appointment :=
  { id := "b2", patientId := "p2", providerId := "prov1", locationId := "L1",
    date := 700, duration := 30, status := Status.PENDING }

/-- Bulk-scenario appointment 3. -/
def bulk3 : Appointment :=
  { id := "b3", patientId := "p3", providerId := "prov2", locationId := "L2",
    date := 800, duration := 45, status := Status.CONFIRMED }

/-- C8 witness: bulk delete of 5 ids of which 2 do not exist answers
`affectedCount = 3` (Scenario D). -/
theorem C8_bulk_affected_count_witness :
    (([bulk1, bulk2, bulk3].map Appointment.id).Nodup ∧
      (["b1", "b2", "x1", "x2", "b3"] : List String).Nodup ∧
      applyBulk [bulk1, bulk2, bulk3] BulkAction.delete
        ["b1", "b2", "x1", "x2", "b3"] none = some (3, [])) ∧
    3 = ((["b1", "b2", "x1", "x2", "b3"] : List String).filter (fun i =>
        [bulk1, bulk2, bulk3].any (fun a => decide (a.id = i)))).length :=
  ⟨⟨by decide, by decide, by decide⟩,
   C8_bulk_affected_count [bulk1, bulk2, bulk3] BulkAction.delete
     ["b1", "b2", "x1", "x2", "b3"] none 3 [] (by decide) (by decide) (by decide)⟩

/-! ## C9 — per-hour occupancy and over-capacity reporting -/

/-- The bucket-increment predicate (`startHour ≤ h < endHour`, computed
with `getHours`/`getMinutes`/`Math.ceil`) holds exactly when the
appointment interval intersects the hour `[dayStart+60h, dayStart+60h+60)`,
for any appointment starting on or after `dayStart` with positive
duration. -/
theorem bucket_pred_eq_specOverlap (dayStart : Int) (h : Nat) (a : Appointment)
    (hday : dayStart ≤ a.date) (_hdur : 1 ≤ a.duration) :
    (decide (aptStartHour dayStart a ≤ h) && decide (h < aptEndHour dayStart a)) =
      specOverlap a.date (a.date + (a.duration : Int))
        (dayStart + 60 * (h : Int)) (dayStart + 60 * (h : Int) + 60) := by
  apply Bool.eq_iff_iff.mpr
  simp only [aptEndHour, aptStartHour, specOverlap, Bool.and_eq_true,
    decide_eq_true_eq]
  omega

/-- `currentAppointments` of a bucket is the hourly count. -/
theorem hourBucket_current (dayStart : Int) (capacity : Nat)
    (l : List Appointment) (h : Nat) :
    (hourBucket dayStart capacity l h).currentAppointments =
      hourlyCount dayStart l h := rfl

/-- `availableSlots` of a bucket is the truncated capacity remainder. -/
theorem hourBucket_available (dayStart : Int) (capacity : Nat)
    (l : List Appointment) (h : Nat) :
    (hourBucket dayStart capacity l h).availableSlots =
      capacity - hourlyCount dayStart l h := rfl

/-- `isAvailable` of a bucket compares the count with the capacity. -/
theorem hourBucket_isAvailable (dayStart : Int) (capacity : Nat)
    (l : List Appointment) (h : Nat) :
    (hourBucket dayStart capacity l h).isAvailable =
      decide (hourlyCount dayStart l h < capacity) := rfl

/-- C9: for the location's same-day non-cancelled appointments (all of
positive duration), the hour bucket reports as `currentAppointments`
exactly the number of appointments whose interval intersects that hour
(partial hours included, not clamped to capacity), reports
`availableSlots = max(0, capacity - occupied)`, and when occupied
exceeds capacity it reports the bucket unavailable with zero available
slots. -/
theorem C9_hourly_capacity (store : List Appointment) (locId : String)
    (dayStart : Int) (capacity : Nat) (h : Nat)
    (hdur : ∀ a ∈ store, 1 ≤ a.duration) :
    (hourBucket dayStart capacity (locationDayAppointments store locId dayStart) h).currentAppointments
        = (locationDayAppointments store locId dayStart).countP (fun a =>
            specOverlap a.date (a.date + (a.duration : Int))
              (dayStart + 60 * (h : Int)) (dayStart + 60 * (h : Int) + 60)) ∧
      ((hourBucket dayStart capacity (locationDayAppointments store locId dayStart) h).availableSlots : Int)
        = max 0 ((capacity : Int) -
            ((hourBucket dayStart capacity (locationDayAppointments store locId dayStart) h).currentAppointments : Int)) ∧
      (capacity < (hourBucket dayStart capacity (locationDayAppointments store locId dayStart) h).currentAppointments →
        (hourBucket dayStart capacity (locationDayAppointments store locId dayStart) h).isAvailable = false ∧
          (hourBucket dayStart capacity (locationDayAppointments store locId dayStart) h).availableSlots = 0) := by
  have hcount : hourlyCount dayStart (locationDayAppointments store locId dayStart) h
      = (locationDayAppointments store locId dayStart).countP (fun a =>
          specOverlap a.date (a.date + (a.duration : Int))
            (dayStart + 60 * (h : Int)) (dayStart + 60 * (h : Int) + 60)) := by
    unfold hourlyCount
    apply List.countP_congr
    intro a ha
    have hmem := List.mem_filter.mp ha
    have hday : dayStart ≤ a.date := by
      have := hmem.2
      simp only [Bool.and_eq_true, decide_eq_true_eq] at this
      exact this.1.1.2
    rw [bucket_pred_eq_specOverlap dayStart h a hday (hdur a hmem.1)]
  rw [hourBucket_current, hourBucket_available, hourBucket_isAvailable, hcount]
  refine ⟨rfl, ?_, ?_⟩
  · rw [max_def]
    split <;> omega
  · intro hover
    constructor
    · simp only [decide_eq_false_iff_not]
      omega
    · omega

/-- Capacity-scenario appointment 14:05–14:35. -/
def capA : Appointment :=
  { id := "c1", patientId := "p1", providerId := "prov1", locationId := "L1",
    date := 845, duration := 30, status := Status.CONFIRMED }

/-- Capacity-scenario appointment 14:10–15:10. -/
def capB : Appointment :=
  { id := "c2", patientId := "p2", providerId := "prov2", locationId := "L1",
    date := 850, duration := 60, status := Status.PENDING }

/-- Capacity-scenario appointment 14:30–14:45. -/
def capC : Appointment :=
  { id := "c3", patientId := "p3", providerId := "prov3", locationId := "L1",
    date := 870, duration := 15, status := Status.CONFIRMED }

/-- C9 witness: capacity 2 with three non-cancelled appointments in the
14:00 hour reports `currentAppointments = 3`, `availableSlots = 0` and
`isAvailable = false` (Scenario C), as an instance of the bucket
theorem. -/
theorem C9_hourly_capacity_witness :
    (∀ a ∈ [capA, capB, capC], 1 ≤ a.duration) ∧
      ((hourBucket 0 2 (locationDayAppointments [capA, capB, capC] "L1" 0) 14).currentAppointments
          = (locationDayAppointments [capA, capB, capC] "L1" 0).countP (fun a =>
              specOverlap a.date (a.date + (a.duration : Int))
                (0 + 60 * (14 : Int)) (0 + 60 * (14 : Int) + 60)) ∧
        ((hourBucket 0 2 (locationDayAppointments [capA, capB, capC] "L1" 0) 14).availableSlots : Int)
          = max 0 ((2 : Int) -
              ((hourBucket 0 2 (locationDayAppointments [capA, capB, capC] "L1" 0) 14).currentAppointments : Int)) ∧
        (2 < (hourBucket 0 2 (locationDayAppointments [capA, capB, capC] "L1" 0) 14).currentAppointments →
          (hourBucket 0 2 (locationDayAppointments [capA, capB, capC] "L1" 0) 14).isAvailable = false ∧
            (hourBucket 0 2 (locationDayAppointments [capA, capB, capC] "L1" 0) 14).availableSlots = 0)) ∧
      (hourBucket 0 2 (locationDayAppointments [capA, capB, capC] "L1" 0) 14).currentAppointments = 3 ∧
      (hourBucket 0 2 (locationDayAppointments [capA, capB, capC] "L1" 0) 14).availableSlots = 0 ∧
      (hourBucket 0 2 (locationDayAppointments [capA, capB, capC] "L1" 0) 14).isAvailable = false :=
  ⟨by decide,
   C9_hourly_capacity [capA, capB, capC] "L1" 0 2 14 (by decide),
   by decide, by decide, by decide⟩

/-! ## C5 — the ±24h conflict window is complete for valid durations -/

/-- Any appointment with a validated duration that overlaps a requested
interval of validated duration starts within ±24h of the requested
start. -/
theorem overlap_start_in_window {s : Int} {dur adur : Nat} {as_ : Int}
    (hd : validDuration dur) (had : validDuration adur)
    (hov : hasConflictClause s (s + (dur : Int)) as_ (as_ + (adur : Int)) = true) :
    s - 1440 ≤ as_ ∧ as_ ≤ s + 1440 := by
  obtain ⟨hd1, hd2⟩ := validDuration_bounds hd
  obtain ⟨ha1, ha2⟩ := validDuration_bounds had
  unfold hasConflictClause at hov
  simp only [Bool.or_eq_true, Bool.and_eq_true, decide_eq_true_eq] at hov
  omega

/-- Under validated durations, the booking path's windowed conflict list
equals the unbounded provider scan. -/
theorem windowed_eq_unbounded (store : List Appointment) (req : BookingRequest)
    (hreq : validDuration req.duration)
    (hstore : ∀ a ∈ store, validDuration a.duration) :
    bookConflicts store req =
      unboundedConflicts store req.providerId req.date
        (req.date + (req.duration : Int)) := by
  unfold bookConflicts unboundedConflicts windowFilter
  rw [List.filter_filter]
  apply List.filter_congr
  intro a ha
  apply Bool.eq_iff_iff.mpr
  simp only [overlapsReq, Bool.and_eq_true, decide_eq_true_eq]
  constructor
  · rintro ⟨hov, ⟨⟨hp, hc⟩, _⟩, _⟩
    exact ⟨⟨hp, hc⟩, hov⟩
  · rintro ⟨⟨hp, hc⟩, hov⟩
    obtain ⟨hw1, hw2⟩ := overlap_start_in_window hreq (hstore a ha) hov
    exact ⟨hov, ⟨⟨hp, hc⟩, hw1⟩, hw2⟩

/-- C5: every stored appointment with a validated duration that
overlaps the validated requested interval starts within
`[requestedStart - 24h, requestedStart + 24h]`, and consequently the
booking path's ±24h windowed conflict list coincides with the unbounded
scan over all of the provider's appointments. -/
theorem C5_window_completeness (store : List Appointment) (req : BookingRequest)
    (hreq : validDuration req.duration)
    (hstore : ∀ a ∈ store, validDuration a.duration) :
    (∀ a ∈ store,
        overlapsReq req.date (req.date + (req.duration : Int)) a = true →
        req.date - 1440 ≤ a.date ∧ a.date ≤ req.date + 1440) ∧
      bookConflicts store req =
        unboundedConflicts store req.providerId req.date
          (req.date + (req.duration : Int)) :=
  ⟨fun a ha hov => overlap_start_in_window hreq (hstore a ha) hov,
   windowed_eq_unbounded store req hreq hstore⟩

/-- Window-scenario appointment 10:00–10:30. -/
def winAppt : Appointment :=
  { id := "w1", patientId := "p1", providerId := "provW", locationId := "L1",
    date := 600, duration := 30, status := Status.CONFIRMED }

/-- Window-scenario request 10:15, 30 minutes. -/
def winReq : BookingRequest :=
  { patientId := "p2", providerId := "provW", locationId := "L1",
    date := 615, duration := 30, status := none }

/-- C5 witness: the window-completeness statement instantiated at a
one-appointment store. -/
theorem C5_window_completeness_witness :
    (validDuration winReq.duration ∧ ∀ a ∈ [winAppt], validDuration a.duration) ∧
      ((∀ a ∈ [winAppt],
          overlapsReq winReq.date (winReq.date + (winReq.duration : Int)) a = true →
          winReq.date - 1440 ≤ a.date ∧ a.date ≤ winReq.date + 1440) ∧
        bookConflicts [winAppt] winReq =
          unboundedConflicts [winAppt] winReq.providerId winReq.date
            (winReq.date + (winReq.duration : Int))) :=
  ⟨⟨by decide, by decide⟩,
   C5_window_completeness [winAppt] winReq (by decide) (by decide)⟩

/-! ## C4 — conflicting booking is rejected with the overlap payload -/

/-- Under validated durations, the unbounded three-clause conflict scan
equals the filter by the spec overlap predicate. -/
theorem unbounded_eq_spec_filter (store : List Appointment) (pid : String)
    (s : Int) (dur : Nat) (hdur : validDuration dur)
    (hstore : ∀ a ∈ store, validDuration a.duration) :
    unboundedConflicts store pid s (s + (dur : Int)) =
      store.filter (fun b =>
        decide (b.providerId = pid) && decide (b.status ≠ Status.CANCELLED) &&
        specOverlap s (s + (dur : Int)) b.date (b.date + (b.duration : Int))) := by
  unfold unboundedConflicts
  apply List.filter_congr
  intro a ha
  have h1 : s < s + (dur : Int) := by
    have := validDuration_bounds hdur
    omega
  have h2 : a.date < a.date + (a.duration : Int) := by
    have := validDuration_bounds (hstore a ha)
    omega
  rw [hasConflictClause_eq_specOverlap _ _ _ _ h1 h2]

/-- C4: when the requested interval overlaps a non-cancelled
appointment of the same provider (all durations validated), booking
answers the conflict outcome whose payload is exactly the provider's
non-cancelled appointments overlapping the request, and the store is
unchanged. -/
theorem C4_conflict_rejected_with_payload (store : List Appointment)
    (req : BookingRequest) (newId : String)
    (hreq : validDuration req.duration)
    (hstore : ∀ a ∈ store, validDuration a.duration)
    (a : Appointment) (ha : a ∈ store)
    (hprov : a.providerId = req.providerId)
    (hcanc : a.status ≠ Status.CANCELLED)
    (hov : specOverlap req.date (req.date + (req.duration : Int))
        a.date (a.date + (a.duration : Int)) = true) :
    book store req newId =
      (BookResult.conflict (store.filter (fun b =>
        decide (b.providerId = req.providerId) &&
        decide (b.status ≠ Status.CANCELLED) &&
        specOverlap req.date (req.date + (req.duration : Int))
          b.date (b.date + (b.duration : Int)))), store) := by
  have h1 : req.date < req.date + (req.duration : Int) := by
    have := validDuration_bounds hreq
    omega
  have h2 : a.date < a.date + (a.duration : Int) := by
    have := validDuration_bounds (hstore a ha)
    omega
  have hclause : hasConflictClause req.date (req.date + (req.duration : Int))
      a.date (a.date + (a.duration : Int)) = true := by
    rw [hasConflictClause_eq_specOverlap _ _ _ _ h1 h2]
    exact hov
  have hwin := overlap_start_in_window hreq (hstore a ha) hclause
  have hamem : a ∈ windowFilter store req.providerId req.date := by
    apply List.mem_filter.mpr
    refine ⟨ha, ?_⟩
    simp only [Bool.and_eq_true, decide_eq_true_eq]
    exact ⟨⟨⟨hprov, hcanc⟩, hwin.1⟩, hwin.2⟩
  have hany : (windowFilter store req.providerId req.date).any
      (overlapsReq req.date (req.date + (req.duration : Int))) = true :=
    List.any_eq_true.mpr ⟨a, hamem, hclause⟩
  have hbook : book store req newId
      = (BookResult.conflict ((windowFilter store req.providerId req.date).filter
          (overlapsReq req.date (req.date + (req.duration : Int)))), store) := by
    unfold book
    simp only [hany, if_true]
  rw [hbook]
  have hpayload : (windowFilter store req.providerId req.date).filter
        (overlapsReq req.date (req.date + (req.duration : Int)))
      = store.filter (fun b =>
          decide (b.providerId = req.providerId) &&
          decide (b.status ≠ Status.CANCELLED) &&
          specOverlap req.date (req.date + (req.duration : Int))
            b.date (b.date + (b.duration : Int))) := by
    have e1 : (windowFilter store req.providerId req.date).filter
          (overlapsReq req.date (req.date + (req.duration : Int)))
        = bookConflicts store req := rfl
    rw [e1, windowed_eq_unbounded store req hreq hstore,
      unbounded_eq_spec_filter store req.providerId req.date req.duration hreq hstore]
  rw [hpayload]

/-- Scenario-B appointment: CONFIRMED, 10:00–10:30, provider `provX`. -/
def apptB : Appointment :=
  { id := "sb1", patientId := "pat1", providerId := "provX", locationId := "L1",
    date := 600, duration := 30, status := Status.CONFIRMED }

/-- Scenario-B request: 10:15–10:45 for provider `provX`. -/
def reqB : BookingRequest :=
  { patientId := "pat2", providerId := "provX", locationId := "L1",
    date := 615, duration := 30, status := none }

/-- C4 witness (Scenario B): booking 10:15–10:45 against an existing
CONFIRMED 10:00–10:30 appointment of the same provider yields the
conflict outcome listing exactly that appointment, with the store
unchanged. -/
theorem C4_conflict_rejected_with_payload_witness :
    (validDuration reqB.duration ∧ (∀ a ∈ [apptB], validDuration a.duration) ∧
      apptB ∈ [apptB] ∧ apptB.providerId = reqB.providerId ∧
      apptB.status ≠ Status.CANCELLED ∧
      specOverlap reqB.date (reqB.date + (reqB.duration : Int))
        apptB.date (apptB.date + (apptB.duration : Int)) = true) ∧
      book [apptB] reqB "n1" =
        (BookResult.conflict ([apptB].filter (fun b =>
          decide (b.providerId = reqB.providerId) &&
          decide (b.status ≠ Status.CANCELLED) &&
          specOverlap reqB.date (reqB.date + (reqB.duration : Int))
            b.date (b.date + (b.duration : Int)))), [apptB]) ∧
      [apptB].filter (fun b =>
          decide (b.providerId = reqB.providerId) &&
          decide (b.status ≠ Status.CANCELLED) &&
          specOverlap reqB.date (reqB.date + (reqB.duration : Int))
            b.date (b.date + (b.duration : Int))) = [apptB] :=
  ⟨⟨by decide, by decide, by decide, by decide, by decide, by decide⟩,
   C4_conflict_rejected_with_payload [apptB] reqB "n1" (by decide) (by decide)
     apptB (by decide) (by decide) (by decide) (by decide),
   by decide⟩

/-! ## C2 — slot soundness against the booking conflict check -/

/-- Every slot admitted by the cursor loop ends exactly `duration`
after its start and passes the three-clause test against every fetched
appointment. -/
theorem slotScan_mem {existing : List Appointment} {dur : Nat} {re : Int} :
    ∀ {fuel : Nat} {cur s e : Int},
      (s, e) ∈ slotScan existing dur re fuel cur →
      e = s + (dur : Int) ∧
        ∀ a ∈ existing,
          hasConflictClause s e a.date (a.date + (a.duration : Int)) = false := by
  intro fuel
  induction fuel with
  | zero =>
    intro cur s e hmem
    simp [slotScan] at hmem
  | succ n ih =>
    intro cur s e hmem
    rw [slotScan] at hmem
    split at hmem
    · split at hmem
      · split at hmem
        · exact ih hmem
        · rename_i hnoc
          rcases List.mem_cons.mp hmem with heq | hm
          · injection heq with hs he
            subst hs
            subst he
            refine ⟨rfl, ?_⟩
            rw [Bool.not_eq_true, List.any_eq_false] at hnoc
            exact fun a ha => Bool.eq_false_iff.mpr (hnoc a ha)
          · exact ih hm
      · exact ih hmem
    · simp at hmem

/-- Same property for the full slot computation. -/
theorem generateSlots_mem {dayAvail : List (Int × Int)}
    {existing : List Appointment} {dur : Nat} {s e : Int}
    (h : (s, e) ∈ generateSlots dayAvail existing dur) :
    e = s + (dur : Int) ∧
      ∀ a ∈ existing,
        hasConflictClause s e a.date (a.date + (a.duration : Int)) = false := by
  unfold generateSlots at h
  obtain ⟨r, _, hr⟩ := List.mem_flatMap.mp h
  exact slotScan_mem hr

/-- Appointment of the same provider at another location, 09:00–09:30. -/
def c2Appt : Appointment :=
  { id := "ca1", patientId := "p1", providerId := "provC", locationId := "L2",
    date := 540, duration := 30, status := Status.CONFIRMED }

/-- Booking request for the 09:00 slot the availability computation
just returned. -/
def c2Req : BookingRequest :=
  { patientId := "p2", providerId := "provC", locationId := "L1",
    date := 540, duration := 30, status := none }

/-- C2 counterexample: with the availability query filtered to location
`L1`, the provider's 09:00–09:30 appointment at location `L2` is not
fetched, so the 09:00 slot is returned — yet booking that slot finds
that appointment in the ±24h conflict check, so the booking does not
pass with zero conflicts. -/
theorem C2_counterexample :
    (540, 570) ∈ availableSlots [c2Appt] "provC" (some "L1") 0 [(540, 720)] 30 ∧
      bookConflicts [c2Appt] c2Req = [c2Appt] ∧
      book [c2Appt] c2Req "n1" = (BookResult.conflict [c2Appt], [c2Appt]) := by
  decide

/-- C2 (amended): every slot returned by the availability computation,
when immediately booked for that provider, passes the booking conflict
check with zero conflicts, provided the availability query was not
restricted to one location and every non-cancelled appointment of the
provider starts within the queried day. -/
theorem C2_amended_slot_soundness (store : List Appointment) (pid : String)
    (dayStart : Int) (dayAvail : List (Int × Int)) (dur : Nat)
    (s e : Int) (req : BookingRequest)
    (hday : ∀ a ∈ store, a.providerId = pid → a.status ≠ Status.CANCELLED →
        dayStart ≤ a.date ∧ a.date ≤ dayStart + 1439)
    (hslot : (s, e) ∈ availableSlots store pid none dayStart dayAvail dur)
    (hpid : req.providerId = pid) (hdate : req.date = s)
    (hdur : req.duration = dur) :
    bookConflicts store req = [] := by
  obtain ⟨he, hnoc⟩ := generateSlots_mem hslot
  unfold bookConflicts
  rw [hpid, hdate, hdur]
  apply List.filter_eq_nil_iff.mpr
  intro a hwin
  obtain ⟨hastore, hpred⟩ := List.mem_filter.mp hwin
  simp only [Bool.and_eq_true, decide_eq_true_eq] at hpred
  obtain ⟨⟨⟨hp, hc⟩, _⟩, _⟩ := hpred
  obtain ⟨hd1, hd2⟩ := hday a hastore hp hc
  have hmem : a ∈ availabilityAppointments store pid none dayStart := by
    apply List.mem_filter.mpr
    refine ⟨hastore, ?_⟩
    simp only [Bool.and_eq_true, decide_eq_true_eq]
    exact ⟨⟨⟨⟨hp, trivial⟩, hd1⟩, hd2⟩, hc⟩
  have hfalse := hnoc a hmem
  rw [he] at hfalse
  intro hcontra
  unfold overlapsReq at hcontra
  rw [hfalse] at hcontra
  exact absurd hcontra (by decide)

/-- Slot-soundness-scenario appointment, same provider, 10:00–10:30,
starting within the queried day. -/
def sdAppt : Appointment :=
  { id := "sd1", patientId := "p1", providerId := "provS", locationId := "L1",
    date := 600, duration := 30, status := Status.CONFIRMED }

/-- Booking request for the returned 09:00 slot. -/
def sdReq : BookingRequest :=
  { patientId := "p2", providerId := "provS", locationId := "L1",
    date := 540, duration := 30, status := none }

/-- C2 witness: the amended soundness statement instantiated at a
one-appointment store and the 09:00 slot. -/
theorem C2_amended_slot_soundness_witness :
    ((∀ a ∈ [sdAppt], a.providerId = "provS" → a.status ≠ Status.CANCELLED →
        (0 : Int) ≤ a.date ∧ a.date ≤ 0 + 1439) ∧
      (540, 570) ∈ availableSlots [sdAppt] "provS" none 0 [(540, 720)] 30 ∧
      sdReq.providerId = "provS" ∧ sdReq.date = 540 ∧ sdReq.duration = 30) ∧
      bookConflicts [sdAppt] sdReq = [] :=
  ⟨⟨by decide, by decide, by decide, by decide, by decide⟩,
   C2_amended_slot_soundness [sdAppt] "provS" 0 [(540, 720)] 30 540 570 sdReq
     (by decide) (by decide) (by decide) (by decide) (by decide)⟩

/-! ## C10 — update runs the conflict check conditionally, excluding itself -/

/-- C10: (i) an update supplying neither date nor duration is persisted
with no conflict check; (ii) the update path's conflict fetch excludes
the appointment being updated; (iii) re-submitting an appointment's own
start and duration succeeds whenever no *other* non-cancelled
appointment of the provider overlaps it — in particular it never fails
with a conflict against itself. -/
theorem C10_update_conflict_scope (store : List Appointment) (id : String)
    (r : UpdateRequest) (ex : Appointment)
    (hfind : store.find? (fun a => decide (a.id = id)) = some ex) :
    (r.date = none → r.duration = none →
      updateAppointment store id r =
        (UpdateResult.updated (applyPatch ex r),
         store.map (fun a => if a.id = id then applyPatch a r else a))) ∧
      (∀ pid s, ∀ a ∈ updateConflictWindow store id pid s, a.id ≠ id) ∧
      (r.date = some ex.date → r.duration = some ex.duration →
        r.providerId = none →
        (∀ a ∈ store, a.id ≠ id → a.providerId = ex.providerId →
          a.status ≠ Status.CANCELLED →
          hasConflictClause ex.date (ex.date + (ex.duration : Int)) a.date
            (a.date + (a.duration : Int)) = false) →
        updateAppointment store id r =
          (UpdateResult.updated (applyPatch ex r),
           store.map (fun a => if a.id = id then applyPatch a r else a))) := by
  refine ⟨?_, ?_, ?_⟩
  · intro hd hdu
    unfold updateAppointment
    rw [hfind]
    simp [hd, hdu]
  · intro pid s a ha
    have hcomp := (List.mem_filter.mp ha).2
    simp only [Bool.and_eq_true, decide_eq_true_eq] at hcomp
    exact hcomp.1.1.1.1
  · intro hd hdu hp hno
    unfold updateAppointment
    rw [hfind]
    simp only [hd, hdu, hp, Option.isSome_some, Bool.true_or, if_true,
      Option.getD_some, Option.getD_none]
    have hany : ((updateConflictWindow store id ex.providerId ex.date).any fun a =>
        hasConflictClause ex.date (ex.date + (ex.duration : Int)) a.date
          (a.date + (a.duration : Int))) = false := by
      rw [List.any_eq_false]
      intro a ha
      obtain ⟨hastore, hcomp⟩ := List.mem_filter.mp ha
      simp only [Bool.and_eq_true, decide_eq_true_eq] at hcomp
      simp only [Bool.not_eq_true]
      exact hno a hastore hcomp.1.1.1.1 hcomp.1.1.1.2 hcomp.1.1.2
    rw [hany]
    simp

/-- Update-scenario appointment 10:00–10:30. -/
def updAppt : Appointment :=
  { id := "u1", patientId := "p1", providerId := "provU", locationId := "L1",
    date := 600, duration := 30, status := Status.CONFIRMED }

/-- An update resubmitting the appointment's own date and duration. -/
def updReq : UpdateRequest := { date := some 600, duration := some 30 }

/-- C10 witness: the conflict-scope statement instantiated at a store
whose only appointment is the one being updated — the update succeeds
even though the appointment overlaps itself. -/
theorem C10_update_conflict_scope_witness :
    ([updAppt].find? (fun a => decide (a.id = "u1")) = some updAppt) ∧
      ((updReq.date = none → updReq.duration = none →
        updateAppointment [updAppt] "u1" updReq =
          (UpdateResult.updated (applyPatch updAppt updReq),
           [updAppt].map (fun a =>
             if a.id = "u1" then applyPatch a updReq else a))) ∧
        (∀ pid s, ∀ a ∈ updateConflictWindow [updAppt] "u1" pid s, a.id ≠ "u1") ∧
        (updReq.date = some updAppt.date → updReq.duration = some updAppt.duration →
          updReq.providerId = none →
          (∀ a ∈ [updAppt], a.id ≠ "u1" → a.providerId = updAppt.providerId →
            a.status ≠ Status.CANCELLED →
            hasConflictClause updAppt.date (updAppt.date + (updAppt.duration : Int))
              a.date (a.date + (a.duration : Int)) = false) →
          updateAppointment [updAppt] "u1" updReq =
            (UpdateResult.updated (applyPatch updAppt updReq),
             [updAppt].map (fun a =>
               if a.id = "u1" then applyPatch a updReq else a)))) :=
  ⟨by decide,
   C10_update_conflict_scope [updAppt] "u1" updReq updAppt (by decide)⟩

end Scheduling
